import Mathlib

/-!
Verification of the conversation-history token-budget core of the chat
application (src/app/main.py): `estimate_tokens`, `count_message_tokens`
and `truncate_message_history`, checked against the specification of the
HistoryBudgeter / TokenEstimator component.

The tokenizer (tiktoken) is an external collaborator that may fail; it is
modelled as a parameter of type `String → Except String Nat`. All results
about the truncation logic are proved for every tokenizer.
-/

set_option autoImplicit false
set_option maxRecDepth 40000

namespace LlmChat

/-- A tokenizer either yields a token count for a text or fails
(`tiktoken.get_encoding` / `encode` may raise, src/app/main.py lines 47-51). -/
def Tokenizer : Type := String → Except String Nat

/-- Embeds `estimate_tokens` (src/app/main.py lines 45-53): try the
tokenizer; on any failure fall back to the character count integer-divided
by 4. -/
def estimate_tokens (tok : Tokenizer) (text : String) : Nat :=
  match tok text with
  | Except.ok n => n
  | Except.error _ => text.length / 4

/-- One chat message as handled by the truncation code: a dict with a
`role` and a possibly missing `content` field. -/
structure Message where
  role : String
  content : Option String
  deriving DecidableEq

/-- `message.get("content", "")` (src/app/main.py lines 59 and 80): a
missing content field reads as the empty string. -/
def Message.getContent (m : Message) : String :=
  m.content.getD ""

/-- The per-message cost computed inline at src/app/main.py lines 59-60 and
line 80: estimated content tokens plus the fixed overhead of 10. -/
def message_tokens (tok : Tokenizer) (m : Message) : Nat :=
  estimate_tokens tok m.getContent + 10

/-- Embeds `count_message_tokens` (src/app/main.py lines 55-61): fold the
per-message cost over the list, starting from 0. -/
def count_message_tokens (tok : Tokenizer) (messages : List Message) : Nat :=
  messages.foldl (fun total m => total + message_tokens tok m) 0

/-- The hardcoded system prompt (src/app/main.py line 65; the same string
is sent in the payload at line 172). -/
def system_prompt : String := "You are a helpful assistant."

/-- The `reserved_tokens` local of `truncate_message_history`
(src/app/main.py lines 65-67): system prompt cost + user input cost + 512
headroom. -/
def reserved_tokens (tok : Tokenizer) (user_input : String) : Nat :=
  (estimate_tokens tok system_prompt + 10) + (estimate_tokens tok user_input + 10) + 512

/-- The `available_tokens` local (src/app/main.py line 69). Python integer
subtraction: the result may be negative, hence `Int`. -/
def available_tokens (tok : Tokenizer) (max_tokens : Int) (user_input : String) : Int :=
  max_tokens - (reserved_tokens tok user_input : Int)

/-- The for-loop of src/app/main.py lines 76-86, recursing over the
reversed history (most recent first) with the running `current_tokens`
total: a message that keeps the total within `available` is prepended via
`insert(0, message)` (so it ends up after the messages accepted before it,
which are more recent); the first message that does not fit breaks the
loop, discarding all older messages. -/
def truncate_loop (tok : Tokenizer) (available : Int) :
    List Message → Nat → List Message
  | [], _ => []
  | message :: rest, current =>
    if (current : Int) + message_tokens tok message ≤ available then
      truncate_loop tok available rest (current + message_tokens tok message) ++ [message]
    else
      []

/-- Embeds `truncate_message_history` (src/app/main.py lines 63-88). -/
def truncate_message_history (tok : Tokenizer) (messages : List Message)
    (max_tokens : Int) (user_input : String) : List Message :=
  if available_tokens tok max_tokens user_input ≤ 0 then
    []
  else
    truncate_loop tok (available_tokens tok max_tokens user_input) messages.reverse 0

/-! ### Specification-side definitions (for the refinement claim)

These follow the words of the spec (§4.2, steps 1-7 of the HistoryBudgeter
algorithm), with the `systemPromptText` parameter of the spec's `truncate`
contract. They are compared with the code-side definitions above. -/

/-- Spec steps 1-3: `reserved = (estimate(systemPromptText) + 10) +
(estimate(userInput) + 10) + 512`. -/
def reserved_spec (tok : Tokenizer) (userInput systemPromptText : String) : Nat :=
  (estimate_tokens tok systemPromptText + 10) + (estimate_tokens tok userInput + 10) + 512

/-- Spec step 4: `available = modelMaxTokens - reserved`. -/
def available_spec (tok : Tokenizer) (modelMaxTokens : Int)
    (userInput systemPromptText : String) : Int :=
  modelMaxTokens - (reserved_spec tok userInput systemPromptText : Int)

/-- Spec step 6: walk most-recent-first, include while the running total
stays within the budget, stop at the first message that does not fit. The
included messages are collected most-recent-first. -/
def spec_walk (tok : Tokenizer) (available : Int) :
    List Message → Nat → List Message
  | [], _ => []
  | m :: rest, running =>
    if (running : Int) + message_tokens tok m ≤ available then
      m :: spec_walk tok available rest (running + message_tokens tok m)
    else
      []

/-- Spec steps 4-7 assembled: empty when `available <= 0`, otherwise the
greedy walk over the reversed history, returned in oldest-first order. -/
def truncate_spec (tok : Tokenizer) (history : List Message) (modelMaxTokens : Int)
    (userInput systemPromptText : String) : List Message :=
  if available_spec tok modelMaxTokens userInput systemPromptText ≤ 0 then
    []
  else
    (spec_walk tok (available_spec tok modelMaxTokens userInput systemPromptText)
      history.reverse 0).reverse

/-! ### Concrete material for witnesses and scenarios -/

/-- The always-failing tokenizer: models tiktoken being unavailable, so
`estimate_tokens` always takes the fallback path. -/
def tok_unavailable : Tokenizer := fun _ => Except.error "tokenizer unavailable"

/-- Message A of the spec's concrete scenario: fallback cost
160 / 4 + 10 = 50 tokens. -/
def mA : Message := { role := "user", content := some (String.mk (List.replicate 160 'a')) }

/-- Message B of the spec's concrete scenario: fallback cost
80 / 4 + 10 = 30 tokens. -/
def mB : Message := { role := "assistant", content := some (String.mk (List.replicate 80 'b')) }

/-- Message C of the spec's concrete scenario: fallback cost
760 / 4 + 10 = 200 tokens. -/
def mC : Message := { role := "user", content := some (String.mk (List.replicate 760 'c')) }

/-! ### Helper lemmas -/

/-- Folding the per-message cost from an arbitrary start equals the start
plus the sum of the costs. -/
theorem count_foldl_init (tok : Tokenizer) (l : List Message) (init : Nat) :
    l.foldl (fun total m => total + message_tokens tok m) init
      = init + (l.map (message_tokens tok)).sum := by
  induction l generalizing init with
  | nil => simp
  | cons m rest ih =>
    simp only [List.foldl_cons, List.map_cons, List.sum_cons, ih]
    omega

/-- `count_message_tokens` is the sum of the per-message costs. -/
theorem count_message_tokens_eq_sum (tok : Tokenizer) (l : List Message) :
    count_message_tokens tok l = (l.map (message_tokens tok)).sum := by
  simpa [count_message_tokens] using count_foldl_init tok l 0

/-- Appending one message adds exactly its cost to the total. -/
theorem count_append_single (tok : Tokenizer) (l : List Message) (m : Message) :
    count_message_tokens tok (l ++ [m])
      = count_message_tokens tok l + message_tokens tok m := by
  simp [count_message_tokens_eq_sum]

/-- A suffix stays a suffix after appending the same element on the right. -/
theorem suffix_append_right {α : Type} {s t : List α} (m : α) (h : s <:+ t) :
    s ++ [m] <:+ t ++ [m] := by
  obtain ⟨u, rfl⟩ := h
  exact ⟨u, (List.append_assoc u s [m]).symm⟩

/-- The truncation loop returns a suffix of the reversed input it walks. -/
theorem truncate_loop_suffix (tok : Tokenizer) (a : Int) (l : List Message) (c : Nat) :
    truncate_loop tok a l c <:+ l.reverse := by
  induction l generalizing c with
  | nil => simp [truncate_loop]
  | cons m rest ih =>
    simp only [truncate_loop, List.reverse_cons]
    split
    · exact suffix_append_right m (ih _)
    · exact List.nil_suffix

/-- `truncate_message_history` always returns a suffix of its input. -/
theorem truncate_suffix_helper (tok : Tokenizer) (ms : List Message)
    (max_tokens : Int) (u : String) :
    truncate_message_history tok ms max_tokens u <:+ ms := by
  unfold truncate_message_history
  split
  · exact List.nil_suffix
  · simpa using truncate_loop_suffix tok (available_tokens tok max_tokens u) ms.reverse 0

/-- Loop invariant: if the running total is within budget on entry, it
stays within budget after adding everything the loop accepts. -/
theorem truncate_loop_budget (tok : Tokenizer) (a : Int) (l : List Message) (c : Nat)
    (h : (c : Int) ≤ a) :
    (c : Int) + count_message_tokens tok (truncate_loop tok a l c) ≤ a := by
  induction l generalizing c with
  | nil => simpa [truncate_loop, count_message_tokens] using h
  | cons m rest ih =>
    simp only [truncate_loop]
    by_cases hfit : (c : Int) + message_tokens tok m ≤ a
    · rw [if_pos hfit, count_append_single]
      have h2 := ih (c + message_tokens tok m) (by push_cast; exact hfit)
      push_cast at h2 ⊢
      omega
    · rw [if_neg hfit]
      simpa [count_message_tokens] using h

/-- Enlarging the budget never shrinks the number of accepted messages. -/
theorem truncate_loop_mono (tok : Tokenizer) {a1 a2 : Int} (hle : a1 ≤ a2)
    (l : List Message) (c : Nat) :
    (truncate_loop tok a1 l c).length ≤ (truncate_loop tok a2 l c).length := by
  induction l generalizing c with
  | nil => simp [truncate_loop]
  | cons m rest ih =>
    simp only [truncate_loop]
    by_cases h1 : (c : Int) + message_tokens tok m ≤ a1
    · rw [if_pos h1, if_pos (le_trans h1 hle)]
      simp only [List.length_append, List.length_singleton]
      exact Nat.add_le_add_right (ih _) 1
    · rw [if_neg h1]
      simp

/-- The code's loop equals the spec's walk, reversed. -/
theorem truncate_loop_eq_spec_walk (tok : Tokenizer) (a : Int) (l : List Message) (c : Nat) :
    truncate_loop tok a l c = (spec_walk tok a l c).reverse := by
  induction l generalizing c with
  | nil => simp [truncate_loop, spec_walk]
  | cons m rest ih =>
    simp only [truncate_loop, spec_walk]
    by_cases h : (c : Int) + message_tokens tok m ≤ a
    · rw [if_pos h, if_pos h, List.reverse_cons, ih]
    · rw [if_neg h, if_neg h, List.reverse_nil]

/-! ### Claim theorems -/

/-- C1 (counterexample): the unconditional budget claim fails when
`available` is negative: with the fallback tokenizer, empty history,
`modelMaxTokens = 0` and empty user input, the result is empty (sum 0) but
`available = -539`, and `0 ≤ -539` is false. -/
theorem budget_claim_fails_on_negative_available :
    ¬ ((count_message_tokens tok_unavailable
          (truncate_message_history tok_unavailable [] 0 "") : Int)
        ≤ available_tokens tok_unavailable 0 "") := by
  decide

/-- C1 (amended): whenever `available = modelMaxTokens - reserved` is
non-negative, the sum over the returned messages of
`estimate(content) + 10` is at most `available`. (When `available` is
negative the result is empty, so the sum is `0`, which exceeds the
negative `available`.) -/
theorem truncate_budget_respected_of_nonneg (tok : Tokenizer) (messages : List Message)
    (max_tokens : Int) (user_input : String)
    (h : 0 ≤ available_tokens tok max_tokens user_input) :
    (count_message_tokens tok (truncate_message_history tok messages max_tokens user_input) : Int)
      ≤ available_tokens tok max_tokens user_input := by
  unfold truncate_message_history
  split
  · simpa [count_message_tokens] using h
  · have hb := truncate_loop_budget tok (available_tokens tok max_tokens user_input)
      messages.reverse 0 (by exact_mod_cast h)
    simpa using hb

/-- Witness for C1's amended theorem at a concrete input. -/
theorem truncate_budget_respected_witness :
    0 ≤ available_tokens tok_unavailable 4096 "hello" ∧
    (count_message_tokens tok_unavailable
        (truncate_message_history tok_unavailable
          [{ role := "user", content := some "hi" }] 4096 "hello") : Int)
      ≤ available_tokens tok_unavailable 4096 "hello" :=
  ⟨by decide,
   truncate_budget_respected_of_nonneg tok_unavailable
     [{ role := "user", content := some "hi" }] 4096 "hello" (by decide)⟩

/-- C2: the result of `truncate_message_history` is always a contiguous
trailing suffix of the input history, in the original oldest-first order
(in particular this holds whenever the result is non-empty). -/
theorem truncate_result_is_suffix (tok : Tokenizer) (messages : List Message)
    (max_tokens : Int) (user_input : String) :
    truncate_message_history tok messages max_tokens user_input <:+ messages :=
  truncate_suffix_helper tok messages max_tokens user_input

/-- C3: the truncation walk is greedy-from-the-end-then-stop: the first
message (walking most-recent-first) whose cost would push the running
total over the budget terminates the walk, excluding every older message
regardless of its size; and on the spec's concrete scenario — history of
costs 50, 30, 200 oldest-first with `available = 250` (realised by the
fallback tokenizer, `modelMaxTokens = 789`, empty user input) — the result
is the last two messages `[B, C]` in oldest-first order. -/
theorem truncate_greedy_stop_and_concrete :
    (∀ (tok : Tokenizer) (a : Int) (m : Message) (rest : List Message) (c : Nat),
        ¬ ((c : Int) + message_tokens tok m ≤ a) →
        truncate_loop tok a (m :: rest) c = []) ∧
    truncate_message_history tok_unavailable [mA, mB, mC] 789 "" = [mB, mC] := by
  constructor
  · intro tok a m rest c h
    simp only [truncate_loop]
    rw [if_neg h]
  · decide

/-- Witness for C3's stop property: the most recent message C (cost 200)
alone exceeds a budget of 100, so the walk stops immediately and the whole
history is dropped — the spec's first concrete scenario. -/
theorem truncate_greedy_stop_witness :
    truncate_loop tok_unavailable 100 [mC, mB, mA] 0 = [] :=
  truncate_greedy_stop_and_concrete.1 tok_unavailable 100 mC [mB, mA] 0 (by decide)

/-- C4: for fixed history and user input, a larger `modelMaxTokens` never
yields fewer included messages. -/
theorem truncate_length_monotone (tok : Tokenizer) (messages : List Message)
    (user_input : String) (m1 m2 : Int) (h : m1 ≤ m2) :
    (truncate_message_history tok messages m1 user_input).length
      ≤ (truncate_message_history tok messages m2 user_input).length := by
  unfold truncate_message_history
  have havail : available_tokens tok m1 user_input ≤ available_tokens tok m2 user_input := by
    unfold available_tokens
    omega
  by_cases h1 : available_tokens tok m1 user_input ≤ 0
  · rw [if_pos h1]
    simp
  · rw [if_neg h1, if_neg (by omega)]
    exact truncate_loop_mono tok havail messages.reverse 0

/-- Witness for C4 at concrete capacities 639 ≤ 789. -/
theorem truncate_length_monotone_witness :
    (639 : Int) ≤ 789 ∧
    (truncate_message_history tok_unavailable [mA, mB, mC] 639 "").length
      ≤ (truncate_message_history tok_unavailable [mA, mB, mC] 789 "").length :=
  ⟨by decide,
   truncate_length_monotone tok_unavailable [mA, mB, mC] "" 639 789 (by decide)⟩

/-- C5: whenever `reserved >= modelMaxTokens` (so `available <= 0`,
including zero or negative capacity), the result is the empty sequence —
no error is raised. -/
theorem truncate_empty_on_exhaustion (tok : Tokenizer) (messages : List Message)
    (max_tokens : Int) (user_input : String)
    (h : max_tokens ≤ (reserved_tokens tok user_input : Int)) :
    truncate_message_history tok messages max_tokens user_input = [] := by
  have hle : available_tokens tok max_tokens user_input ≤ 0 := by
    unfold available_tokens
    omega
  unfold truncate_message_history
  rw [if_pos hle]

/-- Witness for C5 at capacity 0 (reserved is 539 with the fallback
tokenizer and empty user input). -/
theorem truncate_empty_on_exhaustion_witness :
    (0 : Int) ≤ (reserved_tokens tok_unavailable "" : Int) ∧
    truncate_message_history tok_unavailable [mA] 0 "" = [] :=
  ⟨by decide,
   truncate_empty_on_exhaustion tok_unavailable [mA] 0 "" (by decide)⟩

/-- C6: `truncate_message_history` computes its budget exactly as the
spec's contract prescribes: it coincides with the spec's `truncate`
(steps 1-7, with `reserved = (estimate(systemPromptText) + 10) +
(estimate(userInput) + 10) + 512` and `available = modelMaxTokens -
reserved`) instantiated at the system prompt the code hardcodes. -/
theorem truncate_matches_spec_contract (tok : Tokenizer) (messages : List Message)
    (max_tokens : Int) (user_input : String) :
    truncate_message_history tok messages max_tokens user_input
      = truncate_spec tok messages max_tokens user_input system_prompt := by
  have hres : available_spec tok max_tokens user_input system_prompt
      = available_tokens tok max_tokens user_input := rfl
  unfold truncate_message_history truncate_spec
  rw [hres]
  split
  · rfl
  · rw [truncate_loop_eq_spec_walk]

/-- C7: with the tokenizer unavailable, `estimate_tokens` returns the
character count integer-divided by 4 for every text; in particular
`estimate("abcd") = 1`. -/
theorem estimate_fallback_deterministic :
    (∀ (e : String) (text : String),
        estimate_tokens (fun _ => Except.error e) text = text.length / 4) ∧
    estimate_tokens tok_unavailable "abcd" = 1 :=
  ⟨fun _ _ => rfl, by decide⟩

/-- C8: neither function propagates an error: a tokenizer failure silently
falls back to the character heuristic, `estimate_tokens` always returns a
non-negative integer, and `truncate_message_history` always returns a
valid (possibly empty) trailing portion of its input. -/
theorem estimate_and_truncate_never_fail :
    (∀ (e : String) (text : String),
        estimate_tokens (fun _ => Except.error e) text = text.length / 4) ∧
    (∀ (tok : Tokenizer) (text : String), 0 ≤ (estimate_tokens tok text : Int)) ∧
    (∀ (tok : Tokenizer) (messages : List Message) (max_tokens : Int) (user_input : String),
        truncate_message_history tok messages max_tokens user_input <:+ messages) :=
  ⟨fun _ _ => rfl,
   fun tok text => Int.natCast_nonneg (estimate_tokens tok text),
   fun tok messages max_tokens user_input =>
     truncate_suffix_helper tok messages max_tokens user_input⟩

/-- C9: a message whose content field is absent is costed as the empty
string by both `count_message_tokens` and the truncation walk; since the
tokenizer estimates the empty string at 0 tokens, its cost is exactly the
fixed overhead of 10, and it is included exactly when 10 more tokens still
fit in the remaining budget. -/
theorem absent_content_costs_overhead (tok : Tokenizer)
    (h0 : estimate_tokens tok "" = 0) (r : String) (rest : List Message)
    (c : Nat) (a : Int) :
    message_tokens tok { role := r, content := none } = 10 ∧
    count_message_tokens tok [{ role := r, content := none }] = 10 ∧
    truncate_loop tok a ({ role := r, content := none } :: rest) c
      = if (c : Int) + 10 ≤ a then
          truncate_loop tok a rest (c + 10) ++ [{ role := r, content := none }]
        else [] := by
  have hmt : message_tokens tok { role := r, content := none } = 10 := by
    simp [message_tokens, Message.getContent, h0]
  refine ⟨hmt, ?_, ?_⟩
  · simp [count_message_tokens, hmt]
  · simp only [truncate_loop, hmt, Nat.cast_ofNat]

/-- Witness for C9 with the fallback tokenizer (which estimates the empty
string at 0). -/
theorem absent_content_costs_overhead_witness :
    message_tokens tok_unavailable { role := "user", content := none } = 10 ∧
    count_message_tokens tok_unavailable [{ role := "user", content := none }] = 10 ∧
    truncate_loop tok_unavailable 250 [{ role := "user", content := none }] 0
      = if ((0 : Nat) : Int) + 10 ≤ 250 then
          truncate_loop tok_unavailable 250 [] (0 + 10)
            ++ [{ role := "user", content := none }]
        else [] :=
  absent_content_costs_overhead tok_unavailable (by decide) "user" [] 0 250

/-- C10: for a non-empty history (written `ms ++ [m]`) and positive
`available`, the result is non-empty exactly when the most recent
message's cost fits within `available`; and a non-empty result ends with
that most recent message. -/
theorem nonempty_iff_last_message_fits (tok : Tokenizer) (ms : List Message)
    (m : Message) (max_tokens : Int) (user_input : String)
    (h : 0 < available_tokens tok max_tokens user_input) :
    (truncate_message_history tok (ms ++ [m]) max_tokens user_input ≠ [] ↔
       (message_tokens tok m : Int) ≤ available_tokens tok max_tokens user_input) ∧
    (truncate_message_history tok (ms ++ [m]) max_tokens user_input ≠ [] →
       (truncate_message_history tok (ms ++ [m]) max_tokens user_input).getLast?
         = some m) := by
  unfold truncate_message_history
  rw [if_neg (by omega), List.reverse_append, List.reverse_singleton,
    List.singleton_append]
  simp only [truncate_loop]
  by_cases hfit :
      (message_tokens tok m : Int) ≤ available_tokens tok max_tokens user_input
  · rw [if_pos (by simpa using hfit)]
    constructor
    · simp [hfit]
    · intro _
      simp
  · rw [if_neg (by simpa using hfit)]
    simp [hfit]

/-- Witness for C10: with the fallback tokenizer, capacity 789 and empty
user input, `available = 250` and the most recent message C costs 200. -/
theorem nonempty_iff_last_message_fits_witness :
    0 < available_tokens tok_unavailable 789 "" ∧
    ((truncate_message_history tok_unavailable ([mA] ++ [mC]) 789 "" ≠ [] ↔
        (message_tokens tok_unavailable mC : Int)
          ≤ available_tokens tok_unavailable 789 "") ∧
     (truncate_message_history tok_unavailable ([mA] ++ [mC]) 789 "" ≠ [] →
        (truncate_message_history tok_unavailable ([mA] ++ [mC]) 789 "").getLast?
          = some mC)) :=
  ⟨by decide,
   nonempty_iff_last_message_fits tok_unavailable [mA] mC 789 "" (by decide)⟩

end LlmChat
